import Mathlib

/-!
# win_http_server: request framing, routing and response serialisation

A shallow embedding of `src/http_server.cpp` and of the routes registered in
`src/main.cpp`.

* A `std::string` is a list of characters (`Bytes`).
* A `std::unordered_map<std::string, std::string>` is an association list with
  pairwise distinct keys (`AList`).  Its iteration order is unspecified in C++;
  the embedding iterates in list order.  General statements do not depend on
  that order; where the bytes of one concrete response are spelled out, its
  headers stand in the order of the embedding.
* A connected socket is the script of the results of its successive `recv`
  calls (`Sock`): each element is the data one call delivers, an empty element
  or the end of the script is a call that returns `r <= 0`.
* C++ exceptions are explicit outcomes (`Exit.threw`).
* What `handle_connection` does that can be observed from outside is recorded
  as a list of events (`Event`).
-/

namespace HttpServer

/-- A `std::string`. -/
abbrev Bytes := List Char

/-- The bytes of a string literal. -/
def str (s : String) : Bytes := s.toList

/-- The line terminator `"\r\n"`. -/
def CRLF : Bytes := ['\r', '\n']

/-- The header terminator `"\r\n\r\n"`. -/
def CRLFCRLF : Bytes := ['\r', '\n', '\r', '\n']

/-- `std::isspace` in the default "C" locale: space, `\t`, `\n`, `\v`, `\f`, `\r`. -/
def isspace (c : Char) : Bool :=
  c.toNat = 32 || (9 ≤ c.toNat && c.toNat ≤ 13)

/-- `std::isdigit`. -/
def isdigit (c : Char) : Bool :=
  48 ≤ c.toNat && c.toNat ≤ 57

/-- `std::tolower` in the default "C" locale: `A`..`Z` map to `a`..`z`. -/
def tolower (c : Char) : Char :=
  if 65 ≤ c.toNat ∧ c.toNat ≤ 90 then Char.ofNat (c.toNat + 32) else c

/-- `to_lower` (http_server.cpp:17-21). -/
def to_lower (s : Bytes) : Bytes := s.map tolower

/-- `trim` (http_server.cpp:23-28): `a` skips leading whitespace, then `b` backs
up over trailing whitespace without passing `a`. -/
def trim (v : Bytes) : Bytes :=
  ((v.dropWhile isspace).reverse.dropWhile isspace).reverse

/-- Scan for `needle` in `s`, whose first character has index `i`. -/
def find_at (needle : Bytes) : Bytes → Nat → Option Nat
  | [], i => if needle = [] then some i else none
  | c :: cs, i => if needle.isPrefixOf (c :: cs) then some i else find_at needle cs (i + 1)

/-- `std::string::find(needle, pos)`; `none` is `npos`. -/
def find (s needle : Bytes) (pos : Nat) : Option Nat :=
  if pos ≤ s.length then find_at needle (s.drop pos) pos else none

/-- `std::string::substr(pos, n)` for `pos <= size()`. -/
def substr (s : Bytes) (pos n : Nat) : Bytes := (s.drop pos).take n

/-- `std::string::find(c)` for a single character. -/
def find_char (s : Bytes) (c : Char) : Option Nat :=
  find s [c] 0

/-- `std::to_string` of an unsigned value: its decimal digits. -/
def to_string (n : Nat) : Bytes := Nat.toDigits 10 n

/-- `operator<<` for an `int`. -/
def int_to_string (i : Int) : Bytes :=
  if i < 0 then '-' :: Nat.toDigits 10 i.natAbs else Nat.toDigits 10 i.natAbs

/-- `std::unordered_map<std::string, std::string>`. -/
abbrev HeaderMap := AList (fun _ : Bytes => Bytes)

/-- `unordered_map::emplace(k, v)`: inserts only when `k` is absent. -/
def emplace (h : HeaderMap) (k v : Bytes) : HeaderMap :=
  match h.lookup k with
  | some _ => h
  | none => h.insert k v

/-- `struct HttpRequest` (http_server.hpp:15-21). -/
structure HttpRequest where
  method : Bytes
  target : Bytes
  version : Bytes
  headers : HeaderMap
  body : Bytes

/-- `struct HttpResponse` (http_server.hpp:23-28). -/
structure HttpResponse where
  status : Int
  reason : Bytes
  headers : HeaderMap
  body : Bytes

/-- A default-constructed `HttpResponse`: status 200, reason `"OK"`. -/
def HttpResponse.default : HttpResponse :=
  ⟨200, str "OK", ∅, []⟩

/-- One `operator>>` into a `std::string`: skip leading whitespace, then take
the characters up to the next whitespace; fails when none is left.  Returns the
word and the unread rest of the stream. -/
def extract_word (s : Bytes) : Option (Bytes × Bytes) :=
  match s.dropWhile isspace with
  | [] => none
  | c :: cs => some ((c :: cs).takeWhile (fun x => !isspace x),
                     (c :: cs).dropWhile (fun x => !isspace x))

/-- `rl >> out.method >> out.target >> out.version` (http_server.cpp:206-207). -/
def parse_request_line (line : Bytes) : Option (Bytes × Bytes × Bytes) :=
  match extract_word line with
  | none => none
  | some (method, r1) =>
    match extract_word r1 with
    | none => none
    | some (target, r2) =>
      match extract_word r2 with
      | none => none
      | some (version, _) => some (method, target, version)

/-- The body of the header loop for one line (http_server.cpp:219-225): split at
the first colon, lowercase the name, trim the value; a line without a colon is
ignored. -/
def parse_header_line (line : Bytes) (headers : HeaderMap) : HeaderMap :=
  match find_char line ':' with
  | none => headers
  | some colon =>
    let key := substr line 0 colon
    let val := line.drop (colon + 1)
    headers.insert (to_lower key) (trim val)

/-- The header loop `while (pos < header_block.size())` (http_server.cpp:212-226).
The first argument bounds the number of iterations. -/
def parse_header_lines (header_block : Bytes) : Nat → Nat → HeaderMap → HeaderMap
  | 0, _, headers => headers
  | fuel + 1, pos, headers =>
    if pos < header_block.length then
      match find header_block CRLF pos with
      | none => headers
      | some e =>
        if e = pos then headers
        else
          parse_header_lines header_block fuel (e + 2)
            (parse_header_line (substr header_block pos (e - pos)) headers)
    else headers

/-- `HttpServer::parse_request_headers` (http_server.cpp:199-228); `none` is the
return value `false`.  Every iteration of the header loop advances `pos` by at
least 3, so `header_block.length` iterations always suffice. -/
def parse_request_headers (header_block : Bytes) : Option HttpRequest :=
  match find header_block CRLF 0 with
  | none => none
  | some line_end =>
    match parse_request_line (substr header_block 0 line_end) with
    | none => none
    | some (method, target, version) =>
      some ⟨method, target, version,
            parse_header_lines header_block header_block.length (line_end + 2) ∅, []⟩

/-- The header map that `build_response_bytes` serialises (http_server.cpp:236-240). -/
def response_headers (res : HttpResponse) : HeaderMap :=
  let h := emplace res.headers (str "connection") (str "close")
  let h := if h.lookup (str "content-type") = none
           then h.insert (str "content-type") (str "text/plain; charset=utf-8") else h
  h.insert (str "content-length") (to_string res.body.length)

/-- One serialised header, `k << ": " << v << "\r\n"`. -/
def header_line (e : Sigma (fun _ : Bytes => Bytes)) : Bytes :=
  e.1 ++ str ": " ++ e.2 ++ CRLF

/-- The status line written by `build_response_bytes` (http_server.cpp:233-234). -/
def status_line (res : HttpResponse) : Bytes :=
  str "HTTP/1.1 " ++ int_to_string res.status ++ [' '] ++
    (if res.reason = [] then str "OK" else res.reason) ++ CRLF

/-- `HttpServer::build_response_bytes` (http_server.cpp:231-247). -/
def build_response_bytes (res : HttpResponse) : Bytes :=
  status_line res ++ ((response_headers res).entries.map header_line).flatten ++ CRLF ++ res.body

/-- `ULONG_MAX` on Windows (LLP64: `unsigned long` has 32 bits); the body of
`handle_connection` is compiled only under `_WIN32`. -/
def ULONG_MAX : Nat := 4294967295

/-- The exceptions that can leave the code under study. -/
inductive Failure
  /-- `std::invalid_argument`, thrown by `std::stoul` when no digit can be read. -/
  | invalid_argument
  /-- `std::out_of_range`, thrown by `std::stoul` when the value exceeds `ULONG_MAX`. -/
  | out_of_range
  /-- A value thrown by a handler whose type does not derive from `std::exception`. -/
  | foreign
  deriving DecidableEq, Repr

/-- The value of a run of decimal digits. -/
def digits_value (ds : Bytes) : Nat :=
  ds.foldl (fun acc c => 10 * acc + (c.toNat - 48)) 0

/-- `std::stoul(s)` (base 10): skip leading whitespace, accept one sign, read the
longest run of digits and ignore what follows.  No digit throws
`std::invalid_argument`, a magnitude above `ULONG_MAX` throws
`std::out_of_range`, and a leading `-` negates the result modulo `2^32`. -/
def stoul (s : Bytes) : Except Failure Nat :=
  let s1 := s.dropWhile isspace
  let signed : Bool × Bytes :=
    match s1 with
    | '-' :: t => (true, t)
    | '+' :: t => (false, t)
    | _ => (false, s1)
  let ds := signed.2.takeWhile isdigit
  if ds = [] then .error .invalid_argument
  else if digits_value ds > ULONG_MAX then .error .out_of_range
  else .ok (if signed.1 then (ULONG_MAX + 1 - digits_value ds) % (ULONG_MAX + 1)
            else digits_value ds)

/-- The outcome of calling a handler on a request and the default response. -/
inductive HandlerResult
  /-- The handler returned; the argument is the response as it left it. -/
  | returned (res : HttpResponse)
  /-- The handler threw a `std::exception` whose `what()` is `what`, after
  leaving the response as `res`. -/
  | threw (res : HttpResponse) (what : Bytes)
  /-- The handler threw a value that is not a `std::exception`. -/
  | threw_foreign

/-- `HttpServer::Handler`, a `std::function<void(const HttpRequest&, HttpResponse&)>`. -/
abbrev Handler := HttpRequest → HttpResponse → HandlerResult

/-- The route table `routes_`; `none` is an empty `std::function`. -/
abbrev Routes := List ((Bytes × Bytes) × Option Handler)

/-- `HttpServer::route` (http_server.cpp:328-331). -/
def route (routes : Routes) (method path : Bytes) (handler : Option Handler) : Routes :=
  routes ++ [((method, path), handler)]

/-- The route scan of `handle_connection` (http_server.cpp:296-302): the handler of
the first binding whose method and path equal the request's, with its index;
`none` when there is no such binding. -/
def find_route : Routes → Nat → Bytes → Bytes → Option (Nat × Option Handler)
  | [], _, _, _ => none
  | (key, h) :: rest, i, method, target =>
    if key.1 = method ∧ key.2 = target then some (i, h)
    else find_route rest (i + 1) method target

/-- The script of a socket: the data of its successive `recv` calls. -/
abbrev Sock := List Bytes

/-- The header-read loop (http_server.cpp:257-265): the buffer, the index of the
header terminator and the rest of the script, or `none` when the function
returns from inside the loop. -/
def read_header_block : Sock → Bytes → Option (Bytes × Nat × Sock)
  | [], _ => none
  | chunk :: rest, buf =>
    if chunk = [] then none
    else
      match find (buf ++ chunk) CRLFCRLF 0 with
      | some header_end => some (buf ++ chunk, header_end, rest)
      | none => if (buf ++ chunk).length > 65536 then none
                else read_header_block rest (buf ++ chunk)

/-- The body-read loop (http_server.cpp:285-290). -/
def read_body (want : Nat) : Sock → Bytes → Bytes
  | [], body => body
  | chunk :: rest, body =>
    if body.length < want then
      if chunk = [] then body
      else read_body want rest (body ++ chunk.take (min chunk.length (want - body.length)))
    else body

/-- What the first half of `handle_connection` (http_server.cpp:254-290) ends in. -/
inductive ReadOutcome
  /-- The function returned without sending anything. -/
  | aborted
  /-- `parse_request_headers` returned `false`. -/
  | malformed
  /-- `std::stoul` threw. -/
  | threw (f : Failure)
  /-- The request that goes to the router. -/
  | request (req : HttpRequest)

/-- The first half of `handle_connection` (http_server.cpp:254-290): read the
header block, parse it, read the body.  `req.body.reserve(want)` (line 283)
only allocates; a failed allocation (`std::bad_alloc`, `std::length_error`),
which would leave the function like the `std::stoul` exceptions do, is not
part of the embedding. -/
def read_request (sock : Sock) : ReadOutcome :=
  match read_header_block sock [] with
  | none => .aborted
  | some (buf, header_end, sock1) =>
    match parse_request_headers (substr buf 0 header_end) with
    | none => .malformed
    | some req =>
      let body_start := header_end + 4
      let already := if buf.length > body_start then buf.length - body_start else 0
      match (match req.headers.lookup (str "content-length") with
             | some v => stoul v
             | none => .ok 0) with
      | .error f => .threw f
      | .ok want =>
        let body := if already ≠ 0 then req.body ++ substr buf body_start already else req.body
        .request { req with body := read_body want sock1 body }

/-- An observable step of `handle_connection`. -/
inductive Event
  /-- The route table was scanned for this method and target. -/
  | route_lookup (method target : Bytes)
  /-- The handler of the binding with this index was called on this request. -/
  | invoke (index : Nat) (req : HttpRequest)
  /-- These bytes were handed to `send` as one response (the send loop of
  http_server.cpp:318-323 repeats partial writes until all of them are out). -/
  | send (bytes : Bytes)

/-- How a function call ends. -/
inductive Exit
  /-- It returned to its caller. -/
  | returned
  /-- An exception left it. -/
  | threw (f : Failure)
  deriving DecidableEq, Repr

/-- A run of `handle_connection`. -/
structure Run where
  events : List Event
  exit : Exit

/-- The fixed response to a malformed request (http_server.cpp:270). -/
def bad_request : HttpResponse :=
  ⟨400, str "Bad Request", ∅, str "Malformed request\n"⟩

/-- The response to a request no handler is called for (http_server.cpp:312-314). -/
def not_found (res : HttpResponse) : HttpResponse :=
  { res with status := 404, reason := str "Not Found",
             headers := res.headers.insert (str "content-type") (str "text/plain; charset=utf-8"),
             body := str "Route not found\n" }

/-- The response of the `catch` block (http_server.cpp:308-309). -/
def internal_error (res : HttpResponse) (what : Bytes) : HttpResponse :=
  { res with status := 500, reason := str "Internal Server Error",
             body := str "Exception: " ++ what ++ str "\n" }

/-- The second half of `handle_connection` (http_server.cpp:292-323): find the
route, call the handler inside `try`, serialise and send the response. -/
def dispatch (routes : Routes) (req : HttpRequest) : Run :=
  match find_route routes 0 req.method req.target with
  | some (i, some h) =>
    match h req HttpResponse.default with
    | .returned res =>
      ⟨[.route_lookup req.method req.target, .invoke i req, .send (build_response_bytes res)],
       .returned⟩
    | .threw res what =>
      ⟨[.route_lookup req.method req.target, .invoke i req,
        .send (build_response_bytes (internal_error res what))], .returned⟩
    | .threw_foreign =>
      ⟨[.route_lookup req.method req.target, .invoke i req], .threw .foreign⟩
  | _ =>
    ⟨[.route_lookup req.method req.target,
      .send (build_response_bytes (not_found HttpResponse.default))], .returned⟩

/-- `HttpServer::handle_connection` (http_server.cpp:250-325). -/
def handle_connection (routes : Routes) (sock : Sock) : Run :=
  match read_request sock with
  | .aborted => ⟨[], .returned⟩
  | .malformed => ⟨[.send (build_response_bytes bad_request)], .returned⟩
  | .threw f => ⟨[], .threw f⟩
  | .request req => dispatch routes req

/-- What serving one dequeued connection does to a worker. -/
inductive WorkerStep
  /-- The socket was closed and the worker loops. -/
  | closed
  /-- An exception left the thread function: `std::terminate` ends the process. -/
  | terminated (f : Failure)
  deriving DecidableEq, Repr

/-- The body of `worker_loop` for a dequeued connection (http_server.cpp:189-193):
`handle_connection(ns); closesocket(s);` with no `try` around it. -/
def worker_serve (routes : Routes) (sock : Sock) : WorkerStep :=
  match (handle_connection routes sock).exit with
  | .returned => .closed
  | .threw f => .terminated f

/-- The handler of `GET /` (main.cpp:11-14). -/
def root_handler : Handler := fun _ res =>
  .returned { res with
    headers := res.headers.insert (str "content-type") (str "text/plain; charset=utf-8"),
    body := str "It works! Try GET /hello or POST /echo\n" }

/-- The handler of `GET /hello` (main.cpp:17-21). -/
def hello_handler : Handler := fun req res =>
  let ua := match req.headers.lookup (str "user-agent") with
            | some v => v
            | none => str "(unknown)"
  .returned { res with
    headers := res.headers.insert (str "content-type") (str "text/plain; charset=utf-8"),
    body := str "Hello from C++!\nYour User-Agent: " ++ ua ++ str "\n" }

/-- The handler of `POST /echo` (main.cpp:24-27). -/
def echo_handler : Handler := fun req res =>
  .returned { res with
    headers := res.headers.insert (str "content-type") (str "text/plain; charset=utf-8"),
    body := req.body }

/-- The route table built by `main` (main.cpp:11-27). -/
def main_routes : Routes :=
  route (route (route [] (str "GET") (str "/") (some root_handler))
    (str "GET") (str "/hello") (some hello_handler))
    (str "POST") (str "/echo") (some echo_handler)

/-- A handler that sets `connection: keep-alive` and the body `hi`. -/
def keep_alive_handler : Handler := fun _ res =>
  .returned { res with
    headers := res.headers.insert (str "connection") (str "keep-alive"),
    body := str "hi" }

/-- A route table with one binding, `GET /ka`, to `keep_alive_handler`. -/
def keep_alive_routes : Routes :=
  route [] (str "GET") (str "/ka") (some keep_alive_handler)

/-- A handler that sets a header and then throws `std::runtime_error("boom")`. -/
def failing_handler : Handler := fun _ res =>
  .threw { res with headers := res.headers.insert (str "x-step") (str "1") } (str "boom")

/-- A route table with one binding, `GET /boom`, to `failing_handler`. -/
def failing_routes : Routes :=
  route [] (str "GET") (str "/boom") (some failing_handler)

/-- The text of a header block before its first CRLF (all of it when it has none). -/
def first_line : Bytes → Bytes
  | [] => []
  | c :: cs => if CRLF.isPrefixOf (c :: cs) then [] else c :: first_line cs

/-- The whitespace-separated tokens of a line: the non-empty pieces left when the
line is cut at every whitespace character. -/
def tokens (line : Bytes) : List Bytes :=
  (line.splitOnP isspace).filter (fun t => !t.isEmpty)

/-- A character other than the colon. -/
def not_colon (c : Char) : Bool := c != ':'

/-- The key a header line is filed under, read off the line: the text before its
first colon, lowercased; `none` for a line without a colon. -/
def header_name (line : Bytes) : Option Bytes :=
  if ':' ∈ line then some (to_lower (line.takeWhile not_colon)) else none

/-- The text of a header line after its first colon. -/
def header_value (line : Bytes) : Bytes :=
  (line.dropWhile not_colon).drop 1

set_option maxRecDepth 100000

/-! ## Serialisation -/

/-- The map that is serialised holds what `emplace` did to `connection`. -/
theorem lookup_connection (res : HttpResponse) :
    (response_headers res).lookup (str "connection") =
      some ((res.headers.lookup (str "connection")).getD (str "close")) := by
  have h1 : str "connection" ≠ str "content-length" := by decide
  have h2 : str "connection" ≠ str "content-type" := by decide
  unfold response_headers emplace
  simp only []
  rw [AList.lookup_insert_ne h1]
  cases hc : res.headers.lookup (str "connection") with
  | none =>
    simp only [Option.getD_none]
    split
    · rw [AList.lookup_insert_ne h2, AList.lookup_insert]
    · rw [AList.lookup_insert]
  | some v =>
    simp only [Option.getD_some]
    split
    · rw [AList.lookup_insert_ne h2, hc]
    · exact hc

/-- In a header map the entry of a key stands alone: the entries are those before
it, the entry, and those after it, none of which has that key. -/
theorem entries_split (h : HeaderMap) (k v : Bytes) (hl : h.lookup k = some v) :
    ∃ before after : List (Sigma (fun _ : Bytes => Bytes)),
      h.entries = before ++ ⟨k, v⟩ :: after ∧ ∀ e ∈ before ++ after, e.1 ≠ k := by
  obtain ⟨before, after, hs⟩ := List.append_of_mem (AList.mem_lookup_iff.mp hl)
  refine ⟨before, after, hs, ?_⟩
  have nd : (h.entries.map Sigma.fst).Nodup := h.nodupKeys
  rw [hs, List.map_append, List.map_cons] at nd
  have nd2 := (List.nodup_cons.mp (List.nodup_middle.mp nd)).1
  intro e he hk
  have hmem := List.mem_map_of_mem Sigma.fst he
  rw [hk, List.map_append] at hmem
  exact nd2 hmem

/-- C1: for every response, whatever headers the handler set (a `content-length`
entry with another value included), the serialised map has a `content-length`
entry whose value is the decimal length of the body and every `content-length`
entry in it has that value; the bytes contain the line `content-length: N` with
`N` that decimal length; and the bytes are, in this order, the status line, the
lines `k: v` of entries with other keys, that one `content-length: N` line,
the lines of further entries with other keys, the empty line and the body. -/
theorem content_length_recomputed (res : HttpResponse) :
    build_response_bytes res =
      status_line res ++ ((response_headers res).entries.map header_line).flatten
        ++ CRLF ++ res.body ∧
    (⟨str "content-length", Nat.toDigits 10 res.body.length⟩ : Sigma (fun _ : Bytes => Bytes))
      ∈ (response_headers res).entries ∧
    (∀ v : Bytes, (⟨str "content-length", v⟩ : Sigma (fun _ : Bytes => Bytes))
      ∈ (response_headers res).entries → v = Nat.toDigits 10 res.body.length) ∧
    str "content-length: " ++ Nat.toDigits 10 res.body.length ++ str "\r\n"
      <:+: build_response_bytes res ∧
    ∃ before after : List (Sigma (fun _ : Bytes => Bytes)),
      (response_headers res).entries =
        before ++ ⟨str "content-length", Nat.toDigits 10 res.body.length⟩ :: after ∧
      (∀ e ∈ before ++ after, e.1 ≠ str "content-length") ∧
      build_response_bytes res =
        str "HTTP/1.1 " ++ int_to_string res.status ++ str " " ++
          (if res.reason = [] then str "OK" else res.reason) ++ str "\r\n" ++
          (before.map (fun e => e.1 ++ str ": " ++ e.2 ++ str "\r\n")).flatten ++
          (str "content-length: " ++ Nat.toDigits 10 res.body.length ++ str "\r\n") ++
          (after.map (fun e => e.1 ++ str ": " ++ e.2 ++ str "\r\n")).flatten ++
          str "\r\n" ++ res.body := by
  have hl : (response_headers res).lookup (str "content-length")
      = some (Nat.toDigits 10 res.body.length) := by
    unfold response_headers
    simp only [to_string]
    rw [AList.lookup_insert]
  obtain ⟨before, after, hs, hne⟩ := entries_split _ _ _ hl
  have hbytes : build_response_bytes res =
      str "HTTP/1.1 " ++ int_to_string res.status ++ str " " ++
        (if res.reason = [] then str "OK" else res.reason) ++ str "\r\n" ++
        (before.map (fun e => e.1 ++ str ": " ++ e.2 ++ str "\r\n")).flatten ++
        (str "content-length: " ++ Nat.toDigits 10 res.body.length ++ str "\r\n") ++
        (after.map (fun e => e.1 ++ str ": " ++ e.2 ++ str "\r\n")).flatten ++
        str "\r\n" ++ res.body := by
    have hh : header_line = fun e => e.1 ++ str ": " ++ e.2 ++ str "\r\n" := rfl
    have hc : CRLF = str "\r\n" := rfl
    have hsp : ([' '] : Bytes) = str " " := rfl
    have hcl : str "content-length" ++ str ": " = str "content-length: " := by decide
    unfold build_response_bytes status_line
    rw [hs, List.map_append, List.map_cons, List.flatten_append, List.flatten_cons, hh, hc, hsp]
    simp only [List.append_assoc]
    rw [← List.append_assoc (str "content-length") (str ": "), hcl]
  refine ⟨rfl, AList.mem_lookup_iff.mp hl, ?_, ?_, before, after, hs, hne, hbytes⟩
  · intro v hv
    have hv2 := AList.mem_lookup_iff.mpr hv
    rw [hl] at hv2
    exact (Option.some.inj hv2).symm
  · rw [hbytes]
    refine ⟨str "HTTP/1.1 " ++ int_to_string res.status ++ str " " ++
        (if res.reason = [] then str "OK" else res.reason) ++ str "\r\n" ++
        (before.map (fun e => e.1 ++ str ": " ++ e.2 ++ str "\r\n")).flatten,
      (after.map (fun e => e.1 ++ str ": " ++ e.2 ++ str "\r\n")).flatten ++
        str "\r\n" ++ res.body, ?_⟩
    simp only [List.append_assoc]

/-- For every response, the serialised header map has exactly one `connection`
entry; its value is the one the handler set when it set one, and `close`
otherwise. -/
theorem connection_entry (res : HttpResponse) (v : Bytes) :
    (⟨str "connection", v⟩ : Sigma (fun _ : Bytes => Bytes)) ∈ (response_headers res).entries ↔
      v = (res.headers.lookup (str "connection")).getD (str "close") := by
  rw [← AList.mem_lookup_iff, lookup_connection]
  constructor
  · intro h
    exact (Option.some.inj h).symm
  · intro h
    rw [h]
    exact Option.mem_def.mpr rfl

/-- C2: a response in which the handler set `connection: keep-alive` is
serialised with the line `connection: keep-alive` and without any
`connection: close`; the bytes are spelled out (headers in the order of the
embedding).  A handler bound to `GET /ka` that sets this header gets exactly
these bytes sent, and the worker then closes the socket as for every
connection. -/
theorem connection_not_overridden :
    (⟨str "connection", str "keep-alive"⟩ : Sigma (fun _ : Bytes => Bytes)) ∈
      (response_headers ⟨200, str "OK",
        (∅ : HeaderMap).insert (str "connection") (str "keep-alive"), str "hi"⟩).entries ∧
    (⟨str "connection", str "close"⟩ : Sigma (fun _ : Bytes => Bytes)) ∉
      (response_headers ⟨200, str "OK",
        (∅ : HeaderMap).insert (str "connection") (str "keep-alive"), str "hi"⟩).entries ∧
    ¬ (str "connection: close" <:+: build_response_bytes ⟨200, str "OK",
        (∅ : HeaderMap).insert (str "connection") (str "keep-alive"), str "hi"⟩) ∧
    str "connection: keep-alive\r\n" <:+: build_response_bytes ⟨200, str "OK",
        (∅ : HeaderMap).insert (str "connection") (str "keep-alive"), str "hi"⟩ ∧
    build_response_bytes ⟨200, str "OK",
        (∅ : HeaderMap).insert (str "connection") (str "keep-alive"), str "hi"⟩ =
      str ("HTTP/1.1 200 OK\r\ncontent-length: 2\r\n" ++
        "content-type: text/plain; charset=utf-8\r\nconnection: keep-alive\r\n\r\nhi") ∧
    handle_connection keep_alive_routes [str "GET /ka HTTP/1.1\r\nHost: x\r\nAccept: a\r\n\r\n"] =
      ⟨[.route_lookup (str "GET") (str "/ka"),
        .invoke 0 ⟨str "GET", str "/ka", str "HTTP/1.1",
          (∅ : HeaderMap).insert (str "host") (str "x"), []⟩,
        .send (str ("HTTP/1.1 200 OK\r\ncontent-length: 2\r\n" ++
          "content-type: text/plain; charset=utf-8\r\nconnection: keep-alive\r\n\r\nhi"))],
       .returned⟩ ∧
    worker_serve keep_alive_routes [str "GET /ka HTTP/1.1\r\nHost: x\r\nAccept: a\r\n\r\n"] =
      .closed :=
  ⟨by decide, by decide, by decide, by decide, by decide, rfl, rfl⟩

/-! ## Requests evaluated on the code -/

/-- C3: a request for an unbound route that has no header line,
`GET /missing HTTP/1.1` followed by the empty line, is answered with the 400
response whatever the route table is, and the route table is not consulted; the
same request with one header line gets the 404 response. -/
theorem missing_route_without_headers (routes : Routes) :
    handle_connection routes [str "GET /missing HTTP/1.1\r\n\r\n"] =
      ⟨[.send (build_response_bytes bad_request)], .returned⟩ ∧
    bad_request.status = 400 ∧
    handle_connection main_routes [str "GET /missing HTTP/1.1\r\nHost: x\r\n\r\n"] =
      ⟨[.route_lookup (str "GET") (str "/missing"),
        .send (build_response_bytes ⟨404, str "Not Found",
          (∅ : HeaderMap).insert (str "content-type") (str "text/plain; charset=utf-8"),
          str "Route not found\n"⟩)], .returned⟩ :=
  ⟨rfl, rfl, rfl⟩

/-- C4: `GET /hello` with `User-Agent: test-agent` as its only header line: the
handler is called with an empty header map and the 200 response carries
`(unknown)` in place of the agent.  With one more header line after it, the
agent is in the body. -/
theorem hello_last_header_dropped :
    handle_connection main_routes
        [str "GET /hello HTTP/1.1\r\nUser-Agent: test-agent\r\n\r\n"] =
      ⟨[.route_lookup (str "GET") (str "/hello"),
        .invoke 1 ⟨str "GET", str "/hello", str "HTTP/1.1", ∅, []⟩,
        .send (build_response_bytes ⟨200, str "OK",
          (∅ : HeaderMap).insert (str "content-type") (str "text/plain; charset=utf-8"),
          str "Hello from C++!\nYour User-Agent: (unknown)\n"⟩)], .returned⟩ ∧
    ¬ (str "Your User-Agent: test-agent" <:+:
        str "Hello from C++!\nYour User-Agent: (unknown)\n") ∧
    handle_connection main_routes
        [str "GET /hello HTTP/1.1\r\nUser-Agent: test-agent\r\nAccept: a\r\n\r\n"] =
      ⟨[.route_lookup (str "GET") (str "/hello"),
        .invoke 1 ⟨str "GET", str "/hello", str "HTTP/1.1",
          (∅ : HeaderMap).insert (str "user-agent") (str "test-agent"), []⟩,
        .send (build_response_bytes ⟨200, str "OK",
          (∅ : HeaderMap).insert (str "content-type") (str "text/plain; charset=utf-8"),
          str "Hello from C++!\nYour User-Agent: test-agent\n"⟩)], .returned⟩ :=
  ⟨rfl, by decide, rfl⟩

/-- C5: `POST /echo` with `Content-Length: 4` as its only header line, the header
block arriving in one read and the body `ping` in the next: the handler is
called with an empty body and the 200 response has an empty body.  With one more
header line after `Content-Length`, the same split gives the body `ping`. -/
theorem echo_split_body_lost :
    handle_connection main_routes
        [str "POST /echo HTTP/1.1\r\nContent-Length: 4\r\n\r\n", str "ping"] =
      ⟨[.route_lookup (str "POST") (str "/echo"),
        .invoke 2 ⟨str "POST", str "/echo", str "HTTP/1.1", ∅, []⟩,
        .send (build_response_bytes ⟨200, str "OK",
          (∅ : HeaderMap).insert (str "content-type") (str "text/plain; charset=utf-8"),
          []⟩)], .returned⟩ ∧
    handle_connection main_routes
        [str "POST /echo HTTP/1.1\r\nContent-Length: 4\r\nAccept: a\r\n\r\n", str "ping"] =
      ⟨[.route_lookup (str "POST") (str "/echo"),
        .invoke 2 ⟨str "POST", str "/echo", str "HTTP/1.1",
          (∅ : HeaderMap).insert (str "content-length") (str "4"), str "ping"⟩,
        .send (build_response_bytes ⟨200, str "OK",
          (∅ : HeaderMap).insert (str "content-type") (str "text/plain; charset=utf-8"),
          str "ping"⟩)], .returned⟩ :=
  ⟨rfl, rfl⟩

/-- C6: a request whose header block parses and whose `Content-Length` value is
non-numeric, empty, or above `ULONG_MAX`: `std::stoul` throws, nothing is sent,
the exception leaves `handle_connection`, and the worker that served the
connection ends in `std::terminate`. -/
theorem content_length_exception_escapes (routes : Routes) :
    handle_connection routes
        [str "POST /echo HTTP/1.1\r\nContent-Length: abc\r\nHost: x\r\n\r\n"] =
      ⟨[], .threw .invalid_argument⟩ ∧
    worker_serve routes
        [str "POST /echo HTTP/1.1\r\nContent-Length: abc\r\nHost: x\r\n\r\n"] =
      .terminated .invalid_argument ∧
    handle_connection routes
        [str "POST /echo HTTP/1.1\r\nContent-Length:\r\nHost: x\r\n\r\n"] =
      ⟨[], .threw .invalid_argument⟩ ∧
    handle_connection routes
        [str "POST /echo HTTP/1.1\r\nContent-Length: 4294967296\r\nHost: x\r\n\r\n"] =
      ⟨[], .threw .out_of_range⟩ :=
  ⟨rfl, rfl, rfl, rfl⟩

/-- C9: bytes that arrive after the header terminator in the same read all go
into the body: with `Content-Length: 2` the handler gets the five bytes `EXTRA`,
and without a `Content-Length` header it gets them as well. -/
theorem body_exceeds_content_length :
    handle_connection main_routes
        [str "POST /echo HTTP/1.1\r\nContent-Length: 2\r\nHost: x\r\n\r\nEXTRA"] =
      ⟨[.route_lookup (str "POST") (str "/echo"),
        .invoke 2 ⟨str "POST", str "/echo", str "HTTP/1.1",
          (∅ : HeaderMap).insert (str "content-length") (str "2"), str "EXTRA"⟩,
        .send (build_response_bytes ⟨200, str "OK",
          (∅ : HeaderMap).insert (str "content-type") (str "text/plain; charset=utf-8"),
          str "EXTRA"⟩)], .returned⟩ ∧
    handle_connection main_routes
        [str "POST /echo HTTP/1.1\r\nAccept: a\r\nHost: x\r\n\r\nEXTRA"] =
      ⟨[.route_lookup (str "POST") (str "/echo"),
        .invoke 2 ⟨str "POST", str "/echo", str "HTTP/1.1",
          (∅ : HeaderMap).insert (str "accept") (str "a"), str "EXTRA"⟩,
        .send (build_response_bytes ⟨200, str "OK",
          (∅ : HeaderMap).insert (str "content-type") (str "text/plain; charset=utf-8"),
          str "EXTRA"⟩)], .returned⟩ :=
  ⟨rfl, rfl⟩

/-- C10, as stated, fails: the line `Host : x` is filed under the key `host `
(with the space), not under `host`; and of two lines with the same name only the
value of the later one is in the resulting map. -/
theorem header_name_not_trimmed :
    (parse_request_headers (str "GET / HTTP/1.1\r\nHost : x\r\n")).map
        (fun req => (req.headers.lookup (str "host"), req.headers.lookup (str "host ")))
      = some (none, some (str "x")) ∧
    (parse_request_headers (str "GET / HTTP/1.1\r\nA: 1\r\nA: 2\r\n")).map
        (fun req => req.headers.lookup (str "a"))
      = some (some (str "2")) := by
  decide

/-! ## The request line -/

/-- A match is never reported before the index the scan starts at. -/
theorem find_at_ge (needle : Bytes) (s : Bytes) (i e : Nat)
    (h : find_at needle s i = some e) : i ≤ e := by
  induction s generalizing i with
  | nil =>
    unfold find_at at h
    split at h
    · exact Nat.le_of_eq (Option.some.inj h)
    · exact absurd h (by simp)
  | cons c cs ih =>
    unfold find_at at h
    split at h
    · exact Nat.le_of_eq (Option.some.inj h)
    · exact Nat.le_of_succ_le (ih (i + 1) h)

/-- The index `find` returns is at least `pos`. -/
theorem find_ge (s needle : Bytes) (pos e : Nat) (h : find s needle pos = some e) : pos ≤ e := by
  unfold find at h
  split at h
  · exact find_at_ge needle _ pos e h
  · exact absurd h (by simp)

/-- The text in front of the first CRLF the scan reports is `first_line`. -/
theorem find_at_first_line (s : Bytes) (i e : Nat) (h : find_at CRLF s i = some e) :
    s.take (e - i) = first_line s := by
  induction s generalizing i with
  | nil => simp [first_line]
  | cons c cs ih =>
    unfold find_at at h
    unfold first_line
    split at h
    · rename_i hp
      have : e = i := (Option.some.inj h).symm
      simp [this, hp]
    · rename_i hp
      have hge := find_at_ge CRLF cs (i + 1) e h
      have hrec := ih (i + 1) h
      have he : e - i = (e - (i + 1)) + 1 := by omega
      rw [if_neg hp, he, List.take_succ_cons, hrec]

/-- The request line `parse_request_headers` cuts out is `first_line`. -/
theorem substr_first_line (block : Bytes) (line_end : Nat)
    (h : find block CRLF 0 = some line_end) :
    substr block 0 line_end = first_line block := by
  unfold find at h
  rw [if_pos (Nat.zero_le _)] at h
  have := find_at_first_line (block.drop 0) 0 line_end h
  simpa [substr] using this

/-- Cutting a list at every separator: the first piece is the run before the first
separator, the other pieces come from what follows that separator. -/
theorem splitOnP_takeWhile (p : Char → Bool) (xs : Bytes) :
    xs.splitOnP p = xs.takeWhile (fun x => !p x) ::
      (match xs.dropWhile (fun x => !p x) with
       | [] => []
       | _ :: r => r.splitOnP p) := by
  induction xs with
  | nil => simp
  | cons x xs ih =>
    rw [List.splitOnP_cons]
    by_cases hx : p x = true
    · simp [hx, List.takeWhile_cons, List.dropWhile_cons]
    · have hx2 : p x = false := by simpa using hx
      rw [ih]
      simp [hx2, List.takeWhile_cons, List.dropWhile_cons, List.modifyHead]

/-- Leading whitespace contributes no token. -/
theorem tokens_dropWhile (s : Bytes) : tokens s = tokens (s.dropWhile isspace) := by
  induction s with
  | nil => rfl
  | cons c cs ih =>
    by_cases hc : isspace c = true
    · rw [List.dropWhile_cons_of_pos hc, ← ih]
      simp [tokens, List.splitOnP_cons, hc]
    · rw [List.dropWhile_cons_of_neg hc]

/-- One `operator>>` reads the first token and leaves a stream holding the others. -/
theorem tokens_extract_word (s : Bytes) :
    tokens s = match extract_word s with
               | none => []
               | some (w, r) => w :: tokens r := by
  rw [tokens_dropWhile]
  unfold extract_word
  cases hs : s.dropWhile isspace with
  | nil => simp [tokens]
  | cons c cs =>
    simp only []
    have hc : isspace c = false := by
      have := List.head_dropWhile_not isspace s (by rw [hs]; simp)
      simpa [hs] using this
    conv_lhs => rw [tokens, splitOnP_takeWhile]
    have hne : ((c :: cs).takeWhile (fun x => !isspace x)).isEmpty = false := by
      simp [List.takeWhile_cons, hc]
    rw [List.filter_cons_of_pos (by simp [hne])]
    congr 1
    cases hd : (c :: cs).dropWhile (fun x => !isspace x) with
    | nil => simp [tokens]
    | cons y r =>
      simp only []
      have hy : isspace y = true := by
        have := List.head_dropWhile_not (fun x => !isspace x) (c :: cs) (by rw [hd]; simp)
        simpa [hd] using this
      simp [tokens, List.splitOnP_cons, hy]

/-- The three extractions succeed exactly when the line has at least 3 tokens. -/
theorem parse_request_line_tokens (line : Bytes) :
    (parse_request_line line).isSome ↔ 3 ≤ (tokens line).length := by
  unfold parse_request_line
  rw [tokens_extract_word line]
  cases h1 : extract_word line with
  | none => simp
  | some p1 =>
    obtain ⟨m, r1⟩ := p1
    simp only []
    rw [tokens_extract_word r1]
    cases h2 : extract_word r1 with
    | none => simp
    | some p2 =>
      obtain ⟨t, r2⟩ := p2
      simp only []
      rw [tokens_extract_word r2]
      cases h3 : extract_word r2 with
      | none => simp
      | some p3 =>
        obtain ⟨v, r3⟩ := p3
        simp

/-- The test made by the scan, as a proposition. -/
theorem crlf_isPrefixOf_iff (s : Bytes) : CRLF.isPrefixOf s = true ↔ CRLF <+: s :=
  List.isPrefixOf_iff_prefix

/-- In a line without CRLF followed by CRLF, the first CRLF is the one that
terminates the line. -/
theorem find_at_crlf_append (line rest : Bytes) (i : Nat) (h : ¬ CRLF <:+: line) :
    find_at CRLF (line ++ CRLF ++ rest) i = some (i + line.length) := by
  induction line generalizing i with
  | nil => simp [find_at, CRLF]
  | cons c l ih =>
    have hl : ¬ CRLF <:+: l := fun hc => h (hc.trans (List.suffix_cons c l).isInfix)
    have hp : ¬ CRLF.isPrefixOf (c :: l ++ CRLF ++ rest) = true := by
      rw [crlf_isPrefixOf_iff]
      intro hpre
      cases l with
      | nil =>
        obtain ⟨t, ht⟩ := hpre
        simp [CRLF] at ht
      | cons d l2 =>
        apply h
        obtain ⟨t, ht⟩ := hpre
        simp only [CRLF, List.cons_append, List.nil_append, List.cons.injEq] at ht
        obtain ⟨hc, hd, -⟩ := ht
        subst hc hd
        exact (List.prefix_append ['\r', '\n'] l2).isInfix
    simp only [List.cons_append] at hp ⊢
    unfold find_at
    rw [if_neg hp]
    have := ih (i + 1) hl
    simp only [List.length_cons]
    rw [this]
    congr 1
    omega

/-- Nothing is found in a text without CRLF. -/
theorem find_at_crlf_none (tail : Bytes) (i : Nat) (h : ¬ CRLF <:+: tail) :
    find_at CRLF tail i = none := by
  induction tail generalizing i with
  | nil => simp [find_at, CRLF]
  | cons c l ih =>
    have hl : ¬ CRLF <:+: l := fun hc => h (hc.trans (List.suffix_cons c l).isInfix)
    have hp : ¬ CRLF.isPrefixOf (c :: l) = true := by
      rw [crlf_isPrefixOf_iff]
      exact fun hpre => h hpre.isInfix
    unfold find_at
    rw [if_neg hp]
    exact ih (i + 1) hl

/-- Searching from the end of a known beginning searches what follows it. -/
theorem find_append_left (pre x needle : Bytes) :
    find (pre ++ x) needle pre.length = find_at needle x pre.length := by
  unfold find
  rw [if_pos (by simp), List.drop_left]

/-- The first colon the scan reports is where `header_name` cuts the line. -/
theorem find_at_colon (s : Bytes) (i e : Nat) (h : find_at [':'] s i = some e) :
    ':' ∈ s ∧ s.takeWhile not_colon = s.take (e - i) := by
  induction s generalizing i with
  | nil => simp [find_at] at h
  | cons c cs ih =>
    unfold find_at at h
    by_cases hc : c = ':'
    · subst hc
      simp at h
      subst h
      simp [not_colon]
    · have hp : ¬ List.isPrefixOf [':'] (c :: cs) = true := by
        simp [List.isPrefixOf]
        exact fun hh => hc hh.symm
      rw [if_neg hp] at h
      have hge := find_at_ge _ _ _ _ h
      obtain ⟨hm, ht⟩ := ih (i + 1) h
      refine ⟨List.mem_cons_of_mem _ hm, ?_⟩
      have he : e - i = (e - (i + 1)) + 1 := by omega
      have hnc : not_colon c = true := by simpa [not_colon] using hc
      rw [he, List.take_succ_cons, List.takeWhile_cons_of_pos hnc, ht]

/-- The scan misses a colon only in a line that has none. -/
theorem find_at_colon_none (s : Bytes) (i : Nat) (h : find_at [':'] s i = none) : ':' ∉ s := by
  induction s generalizing i with
  | nil => simp
  | cons c cs ih =>
    unfold find_at at h
    split at h
    · exact absurd h (by simp)
    · rename_i hp
      have hc : c ≠ ':' := by
        intro hc
        apply hp
        simp [List.isPrefixOf, hc]
      intro hm
      rcases List.mem_cons.mp hm with h1 | h1
      · exact hc h1.symm
      · exact ih (i + 1) h h1

/-- What the loop body does to the map, in terms of the line alone. -/
theorem parse_header_line_eq (line : Bytes) (headers : HeaderMap) :
    parse_header_line line headers =
      match header_name line with
      | none => headers
      | some k => headers.insert k (trim (header_value line)) := by
  unfold parse_header_line find_char find
  rw [if_pos (Nat.zero_le _), List.drop_zero]
  cases hf : find_at [':'] line 0 with
  | none =>
    have := find_at_colon_none line 0 hf
    simp [header_name, this]
  | some colon =>
    obtain ⟨hm, ht⟩ := find_at_colon line 0 colon hf
    simp only [Nat.sub_zero] at ht
    have hd : line.drop (colon + 1) = header_value line := by
      have h1 : line = line.takeWhile not_colon ++ line.dropWhile not_colon :=
        (List.takeWhile_append_dropWhile _ _).symm
      have h2 : line = line.take colon ++ line.drop colon := (List.take_append_drop _ _).symm
      have h3 : line.dropWhile not_colon = line.drop colon := by
        rw [ht] at h1
        exact List.append_cancel_left (h1.symm.trans h2)
      rw [header_value, h3, List.drop_drop, Nat.add_comm]
    simp only [header_name, if_pos hm, substr, List.drop_zero, ht, hd]

/-- A name without a colon consists of other characters. -/
theorem not_colon_of_not_mem (N : Bytes) (hN : ':' ∉ N) : ∀ c ∈ N, not_colon c = true := by
  intro c hc
  have : c ≠ ':' := fun h => hN (h ▸ hc)
  simpa [not_colon] using this

/-- The loop body on a line `N:V` whose name has no colon. -/
theorem parse_header_line_colon (N V : Bytes) (headers : HeaderMap) (hN : ':' ∉ N) :
    parse_header_line (N ++ ':' :: V) headers = headers.insert (to_lower N) (trim V) := by
  rw [parse_header_line_eq]
  have h1 : (N ++ ':' :: V).takeWhile not_colon = N := by
    rw [List.takeWhile_append_of_pos (not_colon_of_not_mem N hN)]
    simp [not_colon]
  have h2 : (N ++ ':' :: V).dropWhile not_colon = ':' :: V := by
    rw [List.dropWhile_append_of_pos (not_colon_of_not_mem N hN)]
    simp [not_colon]
  have hm : ':' ∈ N ++ ':' :: V := by simp
  simp only [header_name, if_pos hm, header_value, h1, h2, List.drop_one, List.tail_cons]

/-- The header block made of terminated lines. -/
theorem terminated_length (lines : List Bytes) :
    lines.length ≤ ((lines.map (fun l => l ++ CRLF)).flatten).length := by
  induction lines with
  | nil => simp
  | cons l ls ih =>
    have hc : CRLF.length = 2 := rfl
    simp only [List.map_cons, List.flatten_cons, List.length_append, List.length_cons, hc]
    omega

/-- Once the iteration bound covers what is left of the block, raising it changes
nothing: the loop has ended by itself. -/
theorem parse_header_lines_fuel (header_block : Bytes) (fuel extra pos : Nat)
    (headers : HeaderMap) (h : header_block.length ≤ pos + fuel) :
    parse_header_lines header_block (fuel + extra) pos headers =
      parse_header_lines header_block fuel pos headers := by
  induction fuel generalizing pos headers with
  | zero =>
    cases extra with
    | zero => rfl
    | succ n =>
      simp only [Nat.zero_add]
      unfold parse_header_lines
      rw [if_neg (by omega)]
  | succ f ih =>
    have hf : f + 1 + extra = (f + extra) + 1 := by omega
    rw [hf]
    unfold parse_header_lines
    split
    · cases hfind : find header_block CRLF pos with
      | none => rfl
      | some e =>
        simp only []
        split
        · rfl
        · have hge := find_ge _ _ _ _ hfind
          exact ih (e + 2) _ (by omega)
    · rfl

/-- The bound `parse_request_headers` gives the header loop is enough: a larger
one yields the same map. -/
theorem header_loop_bound_suffices (header_block : Bytes) (line_end extra : Nat)
    (headers : HeaderMap) :
    parse_header_lines header_block (header_block.length + extra) (line_end + 2) headers =
      parse_header_lines header_block header_block.length (line_end + 2) headers :=
  parse_header_lines_fuel header_block header_block.length extra (line_end + 2) headers
    (by omega)

/-- The header loop on a block made of terminated non-empty lines, followed by
an unterminated remainder or by an empty line: every line is processed, in
order, and nothing else. -/
theorem parse_header_lines_terminated (pre : Bytes) (lines : List Bytes) (tail : Bytes)
    (fuel : Nat) (headers : HeaderMap)
    (hlines : ∀ l ∈ lines, l ≠ [] ∧ ¬ CRLF <:+: l)
    (htail : ¬ CRLF <:+: tail ∨ CRLF <+: tail)
    (hfuel : lines.length < fuel) :
    parse_header_lines (pre ++ ((lines.map (fun l => l ++ CRLF)).flatten ++ tail)) fuel
        pre.length headers =
      lines.foldl (fun acc l => parse_header_line l acc) headers := by
  induction lines generalizing pre fuel headers with
  | nil =>
    cases fuel with
    | zero => rfl
    | succ f =>
      simp only [List.map_nil, List.flatten_nil, List.nil_append, List.foldl_nil]
      unfold parse_header_lines
      split
      · rw [find_append_left]
        rcases htail with ht | ht
        · rw [find_at_crlf_none tail _ ht]
        · obtain ⟨t, rfl⟩ := ht
          have := find_at_crlf_append [] t pre.length (by decide)
          simp only [List.nil_append, List.length_nil, Nat.add_zero] at this
          rw [this]
          simp
      · rfl
  | cons l ls ih =>
    obtain ⟨hne, hncr⟩ := hlines l (List.mem_cons_self _ _)
    cases fuel with
    | zero => simp at hfuel
    | succ f =>
      have hblock : pre ++ (((l :: ls).map (fun l => l ++ CRLF)).flatten ++ tail) =
          pre ++ (l ++ CRLF ++ ((ls.map (fun l => l ++ CRLF)).flatten ++ tail)) := by
        simp [List.append_assoc]
      have hblock2 : pre ++ (l ++ CRLF ++ ((ls.map (fun l => l ++ CRLF)).flatten ++ tail)) =
          (pre ++ l ++ CRLF) ++ ((ls.map (fun l => l ++ CRLF)).flatten ++ tail) := by
        simp [List.append_assoc]
      have hlen : 0 < l.length := List.length_pos.mpr hne
      rw [hblock]
      unfold parse_header_lines
      rw [if_pos (by simp only [List.length_append]; omega)]
      rw [find_append_left, find_at_crlf_append l _ pre.length hncr]
      simp only []
      rw [if_neg (by omega)]
      have hsub : substr (pre ++ (l ++ CRLF ++ ((ls.map (fun l => l ++ CRLF)).flatten ++ tail)))
          pre.length (pre.length + l.length - pre.length) = l := by
        unfold substr
        rw [List.drop_left, Nat.add_sub_cancel_left, List.append_assoc, List.take_left]
      rw [hsub, hblock2]
      have hpos : pre.length + l.length + 2 = (pre ++ l ++ CRLF).length := by
        simp only [List.length_append, CRLF, List.length_cons, List.length_nil]
      rw [hpos, ih (pre ++ l ++ CRLF) f _ (fun x hx => hlines x (List.mem_cons_of_mem _ hx))
        (by simpa using hfuel)]
      rfl

/-- Lines filed under other keys leave the entry of a key alone. -/
theorem lookup_foldl_other (k : Bytes) (lines : List Bytes) (headers : HeaderMap)
    (h : ∀ l ∈ lines, header_name l ≠ some k) :
    (lines.foldl (fun acc l => parse_header_line l acc) headers).lookup k = headers.lookup k := by
  induction lines generalizing headers with
  | nil => rfl
  | cons l ls ih =>
    rw [List.foldl_cons, ih _ (fun x hx => h x (List.mem_cons_of_mem _ hx))]
    rw [parse_header_line_eq]
    have hl := h l (List.mem_cons_self _ _)
    cases hn : header_name l with
    | none => rfl
    | some k2 =>
      simp only []
      rw [hn] at hl
      exact AList.lookup_insert_ne (fun hk => hl (by rw [hk]))

/-- `parse_request_headers` on a block whose request line and header lines are
spelled out. -/
theorem parse_request_headers_terminated (request_line : Bytes) (lines : List Bytes)
    (tail : Bytes)
    (hreq : ¬ CRLF <:+: request_line)
    (hlines : ∀ l ∈ lines, l ≠ [] ∧ ¬ CRLF <:+: l)
    (htail : ¬ CRLF <:+: tail ∨ CRLF <+: tail) :
    parse_request_headers
        (request_line ++ CRLF ++ (lines.map (fun l => l ++ CRLF)).flatten ++ tail) =
      (parse_request_line request_line).map (fun w =>
        ⟨w.1, w.2.1, w.2.2, lines.foldl (fun acc l => parse_header_line l acc) ∅, []⟩) := by
  have hblock : request_line ++ CRLF ++ (lines.map (fun l => l ++ CRLF)).flatten ++ tail =
      (request_line ++ CRLF) ++ ((lines.map (fun l => l ++ CRLF)).flatten ++ tail) := by
    simp [List.append_assoc]
  have hfind : find (request_line ++ CRLF ++ (lines.map (fun l => l ++ CRLF)).flatten ++ tail)
      CRLF 0 = some request_line.length := by
    have h0 := find_append_left [] (request_line ++ CRLF ++
      ((lines.map (fun l => l ++ CRLF)).flatten ++ tail)) CRLF
    simp only [List.nil_append, List.length_nil] at h0
    rw [hblock, List.append_assoc, ← List.append_assoc request_line, h0,
      find_at_crlf_append request_line _ 0 hreq, Nat.zero_add]
  unfold parse_request_headers
  rw [hfind]
  simp only []
  have hsub : substr (request_line ++ CRLF ++ (lines.map (fun l => l ++ CRLF)).flatten ++ tail)
      0 request_line.length = request_line := by
    unfold substr
    rw [List.drop_zero, List.append_assoc, List.append_assoc, List.take_left]
  rw [hsub]
  cases hp : parse_request_line request_line with
  | none => rfl
  | some w =>
    obtain ⟨m, t, v⟩ := w
    simp only [Option.map_some']
    have hpos : request_line.length + 2 = (request_line ++ CRLF).length := by simp [CRLF]
    have hlen := terminated_length lines
    have hc : CRLF.length = 2 := rfl
    rw [hpos, hblock, parse_header_lines_terminated (request_line ++ CRLF) lines tail _ ∅
      hlines htail (by simp only [List.length_append, hc]; omega)]

/-! ## Connection handling and header parsing -/

/-- The status line of the response built by the `catch` block. -/
theorem status_line_internal_error (res : HttpResponse) (d : Bytes) :
    status_line (internal_error res d) = str "HTTP/1.1 500 Internal Server Error\r\n" := by
  simp only [status_line, internal_error]
  decide

/-- C7: when the request read from the connection is bound to a handler and that
handler throws a `std::exception` with description `d`, after leaving the
response as `res`, `handle_connection` looks the route up, calls the handler,
sends exactly one response and returns; the response has status 500, its body is
`Exception: ` followed by `d` and a newline, and its bytes are the status line
`HTTP/1.1 500 Internal Server Error`, the headers, the empty line and that body. -/
theorem handler_failure_yields_500 (routes : Routes) (sock : Sock) (req : HttpRequest)
    (i : Nat) (h : Handler) (res : HttpResponse) (d : Bytes)
    (hread : read_request sock = .request req)
    (hroute : find_route routes 0 req.method req.target = some (i, some h))
    (hthrow : h req HttpResponse.default = .threw res d) :
    handle_connection routes sock =
      ⟨[.route_lookup req.method req.target, .invoke i req,
        .send (build_response_bytes (internal_error res d))], .returned⟩ ∧
    (internal_error res d).status = 500 ∧
    d <:+: (internal_error res d).body ∧
    build_response_bytes (internal_error res d) =
      str "HTTP/1.1 500 Internal Server Error\r\n" ++
        ((response_headers (internal_error res d)).entries.map header_line).flatten ++ CRLF ++
        (str "Exception: " ++ d ++ str "\n") := by
  refine ⟨?_, rfl, ⟨str "Exception: ", str "\n", rfl⟩, ?_⟩
  · unfold handle_connection
    rw [hread]
    simp only []
    unfold dispatch
    rw [hroute]
    simp only []
    rw [hthrow]
  · unfold build_response_bytes
    rw [status_line_internal_error]
    rfl

/-- C7 at `GET /boom`, bound to a handler that sets a header and throws `boom`. -/
theorem handler_failure_yields_500_witness :
    handle_connection failing_routes [str "GET /boom HTTP/1.1\r\nHost: x\r\nAccept: a\r\n\r\n"] =
      ⟨[.route_lookup (str "GET") (str "/boom"),
        .invoke 0 ⟨str "GET", str "/boom", str "HTTP/1.1",
          (∅ : HeaderMap).insert (str "host") (str "x"), []⟩,
        .send (build_response_bytes (internal_error
          ⟨200, str "OK", (∅ : HeaderMap).insert (str "x-step") (str "1"), []⟩ (str "boom")))],
       .returned⟩ ∧
    (internal_error ⟨200, str "OK", (∅ : HeaderMap).insert (str "x-step") (str "1"), []⟩
      (str "boom")).status = 500 ∧
    str "boom" <:+: (internal_error
      ⟨200, str "OK", (∅ : HeaderMap).insert (str "x-step") (str "1"), []⟩ (str "boom")).body :=
  have h := handler_failure_yields_500 failing_routes
    [str "GET /boom HTTP/1.1\r\nHost: x\r\nAccept: a\r\n\r\n"]
    ⟨str "GET", str "/boom", str "HTTP/1.1", (∅ : HeaderMap).insert (str "host") (str "x"), []⟩
    0 failing_handler ⟨200, str "OK", (∅ : HeaderMap).insert (str "x-step") (str "1"), []⟩
    (str "boom") rfl rfl rfl
  ⟨h.1, h.2.1, h.2.2.1⟩

/-- C8: a header block whose first line (the text before the first CRLF) has
fewer than 3 whitespace-separated tokens makes `parse_request_headers` return
`false`; and on every connection whose header block it is, whatever the route
table, `handle_connection` sends exactly one response and returns, without a
route lookup and without a handler call.  The response is the serialisation of
the fixed one with status 400 and body `Malformed request`: the status line
`HTTP/1.1 400 Bad Request`, the three injected headers (in the order of the
embedding), the empty line and the body. -/
theorem short_request_line_yields_400 (header_block : Bytes)
    (hshort : (tokens (first_line header_block)).length < 3) :
    parse_request_headers header_block = none ∧
    bad_request.status = 400 ∧
    bad_request.body = str "Malformed request\n" ∧
    build_response_bytes bad_request =
      str ("HTTP/1.1 400 Bad Request\r\ncontent-length: 18\r\n" ++
        "content-type: text/plain; charset=utf-8\r\nconnection: close\r\n\r\n" ++
        "Malformed request\n") ∧
    ∀ (routes : Routes) (sock rest : Sock) (buf : Bytes) (header_end : Nat),
      read_header_block sock [] = some (buf, header_end, rest) →
      substr buf 0 header_end = header_block →
      handle_connection routes sock =
        ⟨[.send (str ("HTTP/1.1 400 Bad Request\r\ncontent-length: 18\r\n" ++
          "content-type: text/plain; charset=utf-8\r\nconnection: close\r\n\r\n" ++
          "Malformed request\n"))], .returned⟩ := by
  have hparse : parse_request_headers header_block = none := by
    unfold parse_request_headers
    cases hfind : find header_block CRLF 0 with
    | none => rfl
    | some line_end =>
      simp only []
      rw [substr_first_line header_block line_end hfind]
      cases hline : parse_request_line (first_line header_block) with
      | none => rfl
      | some w =>
        have h3 := (parse_request_line_tokens (first_line header_block)).mp (by rw [hline]; rfl)
        omega
  have hbytes : build_response_bytes bad_request =
      str ("HTTP/1.1 400 Bad Request\r\ncontent-length: 18\r\n" ++
        "content-type: text/plain; charset=utf-8\r\nconnection: close\r\n\r\n" ++
        "Malformed request\n") := by decide
  refine ⟨hparse, rfl, rfl, hbytes, ?_⟩
  intro routes sock rest buf header_end hread hblock
  unfold handle_connection read_request
  rw [hread]
  simp only []
  rw [hblock, hparse]
  simp only []
  rw [hbytes]

/-- C8 at the request line `GET /`, which has two tokens. -/
theorem short_request_line_yields_400_witness :
    (tokens (first_line (str "GET /\r\nHost: x\r\nAccept: a"))).length < 3 ∧
    parse_request_headers (str "GET /\r\nHost: x\r\nAccept: a") = none ∧
    handle_connection main_routes [str "GET /\r\nHost: x\r\n", str "Accept: a\r\n\r\n"] =
      ⟨[.send (str ("HTTP/1.1 400 Bad Request\r\ncontent-length: 18\r\n" ++
        "content-type: text/plain; charset=utf-8\r\nconnection: close\r\n\r\n" ++
        "Malformed request\n"))], .returned⟩ :=
  ⟨by decide,
   (short_request_line_yields_400 (str "GET /\r\nHost: x\r\nAccept: a") (by decide)).1,
   (short_request_line_yields_400 (str "GET /\r\nHost: x\r\nAccept: a") (by decide)).2.2.2.2
     main_routes [str "GET /\r\nHost: x\r\n", str "Accept: a\r\n\r\n"] []
     (str "GET /\r\nHost: x\r\nAccept: a\r\n\r\n") 25 rfl rfl⟩

/-- C10, amended: take a header block made of a request line with at least 3
tokens, then CRLF-terminated non-empty header lines, then an unterminated
remainder or an empty line.  For a header line `N:V` among them (`N` without a
colon) that no later line with the same lowercased name follows,
`parse_request_headers` succeeds and the resulting map holds, under the key `N`
lowercased (whitespace in `N` is kept), the value `V` with leading and trailing
whitespace removed. -/
theorem header_line_stored (request_line : Bytes) (before after : List Bytes)
    (N V tail : Bytes)
    (hreq : ¬ CRLF <:+: request_line)
    (htok : 3 ≤ (tokens request_line).length)
    (hlines : ∀ l ∈ before ++ (N ++ ':' :: V) :: after, l ≠ [] ∧ ¬ CRLF <:+: l)
    (htail : ¬ CRLF <:+: tail ∨ CRLF <+: tail)
    (hN : ':' ∉ N)
    (hlater : ∀ l ∈ after, header_name l ≠ some (to_lower N)) :
    ∃ req : HttpRequest,
      parse_request_headers (request_line ++ CRLF ++
        ((before ++ (N ++ ':' :: V) :: after).map (fun l => l ++ CRLF)).flatten ++ tail)
        = some req ∧
      req.headers.lookup (to_lower N) = some (trim V) := by
  rw [parse_request_headers_terminated request_line _ tail hreq hlines htail]
  have hsome := (parse_request_line_tokens request_line).mpr htok
  obtain ⟨w, hw⟩ := Option.isSome_iff_exists.mp hsome
  rw [hw]
  refine ⟨_, rfl, ?_⟩
  simp only []
  rw [List.foldl_append, List.foldl_cons, lookup_foldl_other _ after _ hlater,
    parse_header_line_colon N V _ hN, AList.lookup_insert]

/-- C10, amended, at the line `Host : x` between two other header lines. -/
theorem header_line_stored_witness :
    ∃ req : HttpRequest,
      parse_request_headers
        (str "GET / HTTP/1.1\r\nAccept: a\r\nHost : x\r\nZ: 1\r\nLast: dropped") = some req ∧
      req.headers.lookup (str "host ") = some (str "x") :=
  header_line_stored (str "GET / HTTP/1.1") [str "Accept: a"] [str "Z: 1"]
    (str "Host ") (str " x") (str "Last: dropped")
    (by decide) (by decide) (by decide) (by decide) (by decide) (by decide)

end HttpServer
